import Mathlib

/-!
Verification of the mail-server SMTP core against its specification.

This file shallowly embeds the Rust code of the repository:
  * `crates/smtp/src/outbound/dane/dnssec.rs` — DANE TLSA lookup and
    record classification (`tlsa_lookup`);
  * `crates/common/src/lib.rs` — `ThrottleKey`, `ThrottleKeyHasher`;
  * `crates/common/src/config/inner.rs` — `Data::parse` limiter sizing;
  * `crates/smtp/src/core/mod.rs` — `SessionAddress`, `SessionData`.

Machine integers (u8, u64, usize) are modelled as `Nat`; the values in
play (digest bytes, shard counts, counters) never reach the wrap-around
range on the code paths embedded here, so no modular reduction arises.
Rust's fallible paths are modelled with `Except`/`Option`.
-/

namespace MailServer

/-! ## DANE / TLSA resolver (`crates/smtp/src/outbound/dane/dnssec.rs`)

The DNS record data types mirror `hickory_resolver`'s
`rr::rdata::tlsa::{CertUsage, Matching, Selector}` enums.  Each enum has
the variants matched by `tlsa_lookup` plus the remaining variants of the
hickory enum (`CA`/`Service` for usage, `Raw` for matching, unassigned
and private values for all three), which the code's `_ => continue`
arms treat uniformly. -/

/-- `CertUsage` from hickory's TLSA rdata (RFC 6698 certificate usage). -/
inductive CertUsage where
  | ca
  | service
  | trustAnchor
  | domainIssued
  | unassigned (v : Nat)
  | pvt
  deriving DecidableEq, Repr

/-- `Matching` from hickory's TLSA rdata (RFC 6698 matching type). -/
inductive Matching where
  | raw
  | sha256
  | sha512
  | unassigned (v : Nat)
  | pvt
  deriving DecidableEq, Repr

/-- `Selector` from hickory's TLSA rdata (RFC 6698 selector). -/
inductive Selector where
  | full
  | spki
  | unassigned (v : Nat)
  | pvt
  deriving DecidableEq, Repr

/-- The TLSA rdata carried by one DNS record: usage, matching type,
selector and the raw certificate-association data bytes. -/
structure TlsaRData where
  cert_usage : CertUsage
  matching : Matching
  selector : Selector
  cert_data : List Nat
  deriving DecidableEq, Repr

/-- `TlsaEntry` from `crates/common/src/config/smtp/resolver.rs`
(declared outside src/; its shape is fixed by the construction site in
`dnssec.rs`): one classified certificate association. -/
structure TlsaEntry where
  is_end_entity : Bool
  is_sha256 : Bool
  is_spki : Bool
  data : List Nat
  deriving DecidableEq, Repr

/-- `Tlsa`: the classified entry list plus the two derived flags. -/
structure Tlsa where
  entries : List TlsaEntry
  has_end_entities : Bool
  has_intermediates : Bool
  deriving DecidableEq, Repr

/-- The `match tlsa.cert_usage()` in `tlsa_lookup`: `DomainIssued ↦ true`,
`TrustAnchor ↦ false`, anything else is `continue` (`none`). -/
def usageClass : CertUsage → Option Bool
  | .domainIssued => some true
  | .trustAnchor => some false
  | _ => none

/-- The `match tlsa.matching()` in the `TlsaEntry` literal: `Sha256 ↦ true`,
`Sha512 ↦ false`, anything else is `continue` (`none`). -/
def matchingClass : Matching → Option Bool
  | .sha256 => some true
  | .sha512 => some false
  | _ => none

/-- The `match tlsa.selector()` in the `TlsaEntry` literal: `Spki ↦ true`,
`Full ↦ false`, anything else is `continue` (`none`). -/
def selectorClass : Selector → Option Bool
  | .spki => some true
  | .full => some false
  | _ => none

/-- The record-classification loop of `tlsa_lookup`, in order:
a record whose rdata is not TLSA (`data().and_then(as_tlsa)` = `None`) is
skipped entirely; an unrecognized `cert_usage` hits `continue` before the
flags are touched; a recognized usage sets `has_end_entities` /
`has_intermediates` FIRST, and only then do the `matching`/`selector`
matches inside the `TlsaEntry` literal run, whose `continue` aborts the
`entries.push` but not the already-performed flag update.
State is `(has_end_entities, has_intermediates, entries)`. -/
def classifyStep (st : Bool × Bool × List TlsaEntry) (rec : Option TlsaRData) :
    Bool × Bool × List TlsaEntry :=
  match rec with
  | none => st
  | some tlsa =>
    match usageClass tlsa.cert_usage with
    | none => st
    | some is_end_entity =>
      let has_end_entities := st.1 || is_end_entity
      let has_intermediates := st.2.1 || !is_end_entity
      match matchingClass tlsa.matching with
      | none => (has_end_entities, has_intermediates, st.2.2)
      | some is_sha256 =>
        match selectorClass tlsa.selector with
        | none => (has_end_entities, has_intermediates, st.2.2)
        | some is_spki =>
          (has_end_entities, has_intermediates,
            st.2.2 ++ [⟨is_end_entity, is_sha256, is_spki, tlsa.cert_data⟩])

/-- The whole `for record in tlsa_lookup.as_lookup().record_iter()` loop
followed by the `Tlsa { .. }` construction. -/
def classifyRecords (records : List (Option TlsaRData)) : Tlsa :=
  let st := records.foldl classifyStep (false, false, [])
  { entries := st.2.2, has_end_entities := st.1, has_intermediates := st.2.1 }

/-- `ProtoErrorKind` (hickory proto): the kind matched by `tlsa_lookup`
(`RrsigsNotPresent { .. }`, a struct variant whose fields the code
ignores) versus every other kind. -/
inductive ProtoErrorKind where
  | rrsigsNotPresent (detail : String)
  | otherKind (detail : String)
  deriving DecidableEq, Repr

/-- A hickory `ProtoError`, reduced to the kind the code inspects. -/
structure ProtoError where
  kind : ProtoErrorKind
  deriving DecidableEq, Repr

/-- `ResolveErrorKind` (hickory resolver): the `Proto` variant versus
every other kind, matched via `err.kind()`. -/
inductive ResolveErrorKind where
  | proto (p : ProtoError)
  | otherKind (detail : String)
  deriving DecidableEq, Repr

/-- A hickory `ResolveError`, reduced to the kind the code inspects. -/
structure ResolveError where
  kind : ResolveErrorKind
  deriving DecidableEq, Repr

/-- `mail_auth::Error` as produced by `tlsa_lookup`'s two `Err` paths:
`err.into()` on a `ResolveError`, and `?` on the `ProtoError` from
`Name::from_str_relaxed`. -/
inductive MailAuthError where
  | dnsError (e : ResolveError)
  | protoError (p : ProtoError)
  deriving DecidableEq, Repr

/-- A DNSSEC TLSA answer: the record iterator's yield (each item is the
record's `data().and_then(as_tlsa)` projection) and `valid_until()`,
the answer's validity instant modelled as a `Nat` timestamp. -/
structure DnsAnswer where
  records : List (Option TlsaRData)
  valid_until : Nat
  deriving DecidableEq, Repr

/-- Observable outcome of one `tlsa_lookup` call: the returned value,
whether the DNSSEC resolver was queried, and the `insert_with_expiry`
performed on the `dns_tlsa` cache (key, value, expiry), if any. -/
structure TlsaLookupOutcome where
  result : Except MailAuthError (Option Tlsa)
  dnsQueried : Bool
  cacheInsert : Option (String × Tlsa × Nat)
  deriving Repr

/-- `Server::tlsa_lookup` from `dnssec.rs` (the production path; the
`cfg(test)` mock-resolver branch is compiled out of release builds).
Inputs stand for the call's environment: `cache` is the `dns_tlsa`
cache's current contents keyed by the FQDN (`key.into_fqdn()` has
already been applied), `nameParse` the outcome of
`Name::from_str_relaxed(key)`, and `dns` the outcome the DNSSEC
resolver's `tlsa_lookup` would produce if queried. -/
def tlsa_lookup (cache : String → Option Tlsa) (key : String)
    (nameParse : Except ProtoError Unit)
    (dns : Except ResolveError DnsAnswer) : TlsaLookupOutcome :=
  match cache key with
  | some value => ⟨.ok (some value), false, none⟩
  | none =>
    match nameParse with
    | .error p => ⟨.error (.protoError p), false, none⟩
    | .ok _ =>
      match dns with
      | .error err =>
        match err.kind with
        | .proto p =>
          match p.kind with
          | .rrsigsNotPresent _ => ⟨.ok none, true, none⟩
          | .otherKind _ => ⟨.error (.dnsError err), true, none⟩
        | .otherKind _ => ⟨.error (.dnsError err), true, none⟩
      | .ok answer =>
        let tlsa := classifyRecords answer.records
        ⟨.ok (some tlsa), true, some (key, tlsa, answer.valid_until)⟩

/-! ## Throttle key and fast-path hasher (`crates/common/src/lib.rs`) -/

/-- `ThrottleKey { hash: [u8; 32] }`: a fixed 32-byte digest.  The byte
array is a list of byte values together with the length invariant the
Rust array type carries. -/
structure ThrottleKey where
  hash : List Nat
  hash_len : hash.length = 32

/-- The manual `PartialEq` impl: `self.hash == other.hash`, byte-for-byte
comparison of the 32-byte arrays. -/
def ThrottleKey.beq (a b : ThrottleKey) : Bool :=
  a.hash == b.hash

/-- The manual `Hash` impl: `self.hash.hash(state)` hands the raw digest
bytes to the hasher; this is the byte sequence the impl feeds. -/
def ThrottleKey.hashFeed (a : ThrottleKey) : List Nat :=
  a.hash

/-- `u64::from_ne_bytes` on 8 bytes.  Native endianness is little-endian
on every target the code ships for (x86-64, aarch64), so byte `i`
contributes with weight `256 ^ i`. -/
def u64_from_ne_bytes (bytes : List Nat) : Nat :=
  bytes.foldr (fun b acc => b + 256 * acc) 0

/-- `ThrottleKeyHasher { hash: u64 }`, `Default` gives `hash = 0`. -/
structure ThrottleKeyHasher where
  hash : Nat

/-- `ThrottleKeyHasher::default()`. -/
def ThrottleKeyHasher.default : ThrottleKeyHasher := ⟨0⟩

/-- `ThrottleKeyHasher::write`: `bytes.get(0..8)` yields the first 8
bytes when the input is at least 8 bytes long and `None` otherwise;
`map_or(0, u64::from_ne_bytes)` stores either that value or 0, replacing
(not mixing with) the previous state.  The `debug_assert!` on short
input is compiled out of release builds and is not modelled. -/
def ThrottleKeyHasher.write (_h : ThrottleKeyHasher) (bytes : List Nat) :
    ThrottleKeyHasher :=
  if bytes.length ≥ 8 then ⟨u64_from_ne_bytes (bytes.take 8)⟩ else ⟨0⟩

/-- `ThrottleKeyHasher::finish`: returns the stored `hash` unchanged. -/
def ThrottleKeyHasher.finish (h : ThrottleKeyHasher) : Nat :=
  h.hash

/-! ## Limiter map sizing (`crates/common/src/config/inner.rs`) -/

/-- `u64::next_power_of_two`: the smallest power of two greater than or
equal to the argument (1 for 0), expressed through the base-2 ceiling
logarithm.  The u64 overflow case (argument above `2^63`) is out of
range for shard counts and not modelled. -/
def next_power_of_two (n : Nat) : Nat :=
  2 ^ Nat.clog 2 n

/-- The configuration values `Data::parse` reads for the limiter maps:
`limiter.shard` and `limiter.capacity`, each `None` when the key is
absent from the configuration. -/
structure LimiterConfig where
  shard : Option Nat
  capacity : Option Nat

/-- The construction parameters handed to each
`DashMap::with_capacity_and_hasher_and_shard_amount` call. -/
structure ThrottleMapParams where
  shard_amount : Nat
  capacity : Nat
  deriving DecidableEq, Repr

/-- The "Parse capacities" block of `Data::parse`:
`shard_amount = config.property("limiter.shard")
  .unwrap_or_else(|| num_cpus::get() * 2).next_power_of_two()` and
`capacity = config.property("limiter.capacity").unwrap_or(100)`.
`num_cpus` is the machine's available CPU count. -/
def Data.parse_limiter (config : LimiterConfig) (num_cpus : Nat) :
    ThrottleMapParams :=
  { shard_amount := next_power_of_two (config.shard.getD (num_cpus * 2)),
    capacity := config.capacity.getD 100 }

/-! ## SMTP session data model (`crates/smtp/src/core/mod.rs`) -/

/-- `std::net::IpAddr`, as carried (never inspected) by `SessionData`. -/
inductive IpAddr where
  | v4 (a b c d : Nat)
  | v6 (segments : List Nat)
  deriving DecidableEq, Repr

/-- Rust `str::to_lowercase`.  On the ASCII range (the case relevant to
SMTP addresses) it lower-cases each character, which is exactly
`String.toLower`; the Unicode special cases do not change the
character-wise nature relied on here. -/
def to_lowercase (s : String) : String :=
  ⟨s.data.map Char.toLower⟩

/-- Modelled from the spec: the `domain_part` helper lives in the
`utils` crate, which is not under src/; only its call site in
`SessionAddress::new` is.  It extracts the domain portion of an email
address, modelled as the substring after the last `@` (empty when no
`@` is present).  None of the properties proved below depend on its
exact behaviour, only on it being a function of its input. -/
def domain_part (s : String) : String :=
  if s.data.contains '@' then ⟨(s.data.reverse.takeWhile (· ≠ '@')).reverse⟩
  else ""

/-- `SessionAddress`: the original address, its lower-cased form, the
derived domain, plus flags and DSN info. -/
structure SessionAddress where
  address : String
  address_lcase : String
  domain : String
  flags : Nat
  dsn_info : Option String
  deriving DecidableEq, Repr

/-- The manual `PartialEq` impl: compares only `address_lcase`. -/
def SessionAddress.beq (a b : SessionAddress) : Bool :=
  a.address_lcase == b.address_lcase

/-- The manual `Hash` impl: `self.address_lcase.hash(state)` — the
lower-cased address is the only data fed to the hasher. -/
def SessionAddress.hashFeed (a : SessionAddress) : String :=
  a.address_lcase

/-- Rust `Ord for String`/`str`: byte-wise lexicographic comparison,
which returns `Equal` exactly on equal strings.  (UTF-8 byte order
agrees with scalar-value order, so Lean's string order coincides.) -/
def string_cmp (a b : String) : Ordering :=
  if a = b then .eq else if a < b then .lt else .gt

/-- The manual `Ord` impl on `SessionAddress`: compare `domain` first
and, when equal, `address_lcase`. -/
def SessionAddress.cmp (a b : SessionAddress) : Ordering :=
  match string_cmp a.domain b.domain with
  | .eq => string_cmp a.address_lcase b.address_lcase
  | order => order

/-- `SessionAddress::new`: lower-case the address, derive the domain
from the lower-cased form, zero flags, no DSN info. -/
def SessionAddress.new (address : String) : SessionAddress :=
  let address_lcase := to_lowercase address
  { domain := domain_part address_lcase,
    address_lcase,
    address,
    flags := 0,
    dsn_info := none }

/-- Placeholders for the verification outputs (`IprevOutput`,
`SpfOutput`) and message id stored in `SessionData`; their internals
are outside this development's scope. -/
structure IprevOutput where
  tag : Nat
  deriving DecidableEq, Repr

/-- Placeholder for `mail_auth::SpfOutput`. -/
structure SpfOutput where
  tag : Nat
  deriving DecidableEq, Repr

/-- `SessionData`: per-connection mutable state.  `Instant` values are
`Nat` timestamps. -/
structure SessionData where
  local_ip : IpAddr
  remote_ip : IpAddr
  helo_domain : String
  mail_from : Option SessionAddress
  rcpt_to : List SessionAddress
  rcpt_errors : Nat
  message : List Nat
  authenticated_as : String
  auth_errors : Nat
  priority : Int
  delivery_by : Int
  future_release : Nat
  valid_until : Nat
  bytes_left : Nat
  messages_sent : Nat
  iprev : Option IprevOutput
  spf_ehlo : Option SpfOutput
  spf_mail_from : Option SpfOutput
  dnsbl_error : Option (List Nat)
  deriving DecidableEq, Repr

/-- `SessionData::new(local_ip, remote_ip)`; `now` stands for the
`Instant::now()` read into `valid_until`. -/
def SessionData.new (local_ip remote_ip : IpAddr) (now : Nat) : SessionData :=
  { local_ip,
    remote_ip,
    helo_domain := "",
    mail_from := none,
    rcpt_to := [],
    authenticated_as := "",
    priority := 0,
    valid_until := now,
    rcpt_errors := 0,
    message := [],
    auth_errors := 0,
    messages_sent := 0,
    bytes_left := 0,
    delivery_by := 0,
    future_release := 0,
    iprev := none,
    spf_ehlo := none,
    spf_mail_from := none,
    dnsbl_error := none }

/-! ## Spec-side characterizations

These definitions transcribe the SPEC's description of the
classification pass, to be compared with `classifyRecords`, which was
transcribed from the code. -/

/-- Spec-side description of when a raw record yields an entry: one
entry per record whose usage is DomainIssued/TrustAnchor AND whose
matching type is Sha256/Sha512 AND whose selector is Spki/Full; any
other value on any axis yields no entry. -/
def classifiedEntry_spec (rec : Option TlsaRData) : Option TlsaEntry :=
  match rec with
  | none => none
  | some t =>
    match usageClass t.cert_usage, matchingClass t.matching,
        selectorClass t.selector with
    | some u, some m, some s => some ⟨u, m, s, t.cert_data⟩
    | _, _, _ => none

/-- Whether a record carries TLSA rdata whose usage classifies to `u`
(`true` = end-entity/DomainIssued, `false` = trust-anchor). -/
def usageFlag (u : Bool) (rec : Option TlsaRData) : Bool :=
  match rec with
  | some t => usageClass t.cert_usage == some u
  | none => false

/-! ## Helper lemmas on the classification fold -/

theorem classifyStep_entries (st : Bool × Bool × List TlsaEntry)
    (rec : Option TlsaRData) :
    (classifyStep st rec).2.2 = st.2.2 ++ (classifiedEntry_spec rec).toList := by
  cases rec with
  | none => simp [classifyStep, classifiedEntry_spec]
  | some t =>
    rcases hu : usageClass t.cert_usage with _ | u
    · simp [classifyStep, classifiedEntry_spec, hu]
    · rcases hm : matchingClass t.matching with _ | m
      · simp [classifyStep, classifiedEntry_spec, hu, hm]
      · rcases hs : selectorClass t.selector with _ | s
        · simp [classifyStep, classifiedEntry_spec, hu, hm, hs]
        · simp [classifyStep, classifiedEntry_spec, hu, hm, hs]

theorem classifyStep_flags (st : Bool × Bool × List TlsaEntry)
    (rec : Option TlsaRData) :
    (classifyStep st rec).1 = (st.1 || usageFlag true rec) ∧
    (classifyStep st rec).2.1 = (st.2.1 || usageFlag false rec) := by
  cases rec with
  | none => simp [classifyStep, usageFlag]
  | some t =>
    rcases hu : usageClass t.cert_usage with _ | u
    · simp [classifyStep, usageFlag, hu]
    · rcases hm : matchingClass t.matching with _ | m
      · cases u <;> simp [classifyStep, usageFlag, hu, hm]
      · rcases hs : selectorClass t.selector with _ | s
        · cases u <;> simp [classifyStep, usageFlag, hu, hm, hs]
        · cases u <;> simp [classifyStep, usageFlag, hu, hm, hs]

theorem foldl_classifyStep_entries (records : List (Option TlsaRData)) :
    ∀ st : Bool × Bool × List TlsaEntry,
      (records.foldl classifyStep st).2.2 =
        st.2.2 ++ records.filterMap classifiedEntry_spec := by
  induction records with
  | nil => intro st; simp
  | cons r rs ih =>
    intro st
    rw [List.foldl_cons, ih, classifyStep_entries]
    rcases h : classifiedEntry_spec r with _ | e <;>
      simp [List.filterMap_cons, h]

theorem foldl_classifyStep_flags (records : List (Option TlsaRData)) :
    ∀ st : Bool × Bool × List TlsaEntry,
      (records.foldl classifyStep st).1 =
        (st.1 || records.any (usageFlag true)) ∧
      (records.foldl classifyStep st).2.1 =
        (st.2.1 || records.any (usageFlag false)) := by
  induction records with
  | nil => intro st; simp
  | cons r rs ih =>
    intro st
    rw [List.foldl_cons]
    rcases ih (classifyStep st r) with ⟨ih1, ih2⟩
    rcases classifyStep_flags st r with ⟨hf1, hf2⟩
    constructor
    · rw [ih1, hf1, List.any_cons, Bool.or_assoc]
    · rw [ih2, hf2, List.any_cons, Bool.or_assoc]

theorem usageFlag_true_iff (rec : Option TlsaRData) :
    usageFlag true rec = true ↔
      ∃ d, rec = some d ∧ d.cert_usage = CertUsage.domainIssued := by
  cases rec with
  | none => simp [usageFlag]
  | some t => cases t with
    | mk u m s dat => cases u <;> simp [usageFlag, usageClass]

theorem usageFlag_false_iff (rec : Option TlsaRData) :
    usageFlag false rec = true ↔
      ∃ d, rec = some d ∧ d.cert_usage = CertUsage.trustAnchor := by
  cases rec with
  | none => simp [usageFlag]
  | some t => cases t with
    | mk u m s dat => cases u <;> simp [usageFlag, usageClass]

/-! ## Claim theorems: DANE resolver -/

/-- C1, counterexample: the claim that `has_end_entities` is true iff
some entry in `entries` has `is_end_entity = true` fails.  A single TLSA
record with usage DomainIssued but matching type Raw is skipped by the
matching-type `continue` AFTER the flag update, so `tlsa_lookup`
produces a `Tlsa` with `has_end_entities = true` and an empty entry
list. -/
theorem tlsa_flags_not_from_entries :
    ∃ t : Tlsa,
      (tlsa_lookup (fun _ => none) "example.com." (.ok ())
          (.ok ⟨[some ⟨.domainIssued, .raw, .spki, []⟩], 0⟩)).result =
        .ok (some t) ∧
      t.has_end_entities = true ∧
      ¬ ∃ e ∈ t.entries, e.is_end_entity = true := by
  refine ⟨⟨[], true, false⟩, rfl, rfl, ?_⟩
  simp

/-- C1, amended: for every `Tlsa` produced by a cache-miss `tlsa_lookup`
with a successful answer, the flags are derived from the usage axis of
the raw records, not from the filtered entry set: `has_end_entities` is
true iff some record carries usage DomainIssued, and `has_intermediates`
is true iff some record carries usage TrustAnchor.  A record skipped for
its usage contributes to neither flag; a record skipped only for its
matching type or selector contributes no entry but still contributes its
usage flag. -/
theorem tlsa_flags_from_usage (cache : String → Option Tlsa) (key : String)
    (answer : DnsAnswer) (t : Tlsa) (hmiss : cache key = none)
    (hres : (tlsa_lookup cache key (.ok ()) (.ok answer)).result =
      .ok (some t)) :
    (t.has_end_entities = true ↔
      ∃ r ∈ answer.records, ∃ d, r = some d ∧
        d.cert_usage = CertUsage.domainIssued) ∧
    (t.has_intermediates = true ↔
      ∃ r ∈ answer.records, ∃ d, r = some d ∧
        d.cert_usage = CertUsage.trustAnchor) := by
  simp only [tlsa_lookup, hmiss] at hres
  rcases hres.symm
  rcases foldl_classifyStep_flags answer.records (false, false, []) with ⟨h1, h2⟩
  constructor
  · rw [show (classifyRecords answer.records).has_end_entities =
        (answer.records.foldl classifyStep (false, false, [])).1 from rfl, h1]
    simp only [Bool.false_or, List.any_eq_true]
    exact ⟨fun ⟨r, hr, hu⟩ => ⟨r, hr, (usageFlag_true_iff r).1 hu⟩,
      fun ⟨r, hr, hu⟩ => ⟨r, hr, (usageFlag_true_iff r).2 hu⟩⟩
  · rw [show (classifyRecords answer.records).has_intermediates =
        (answer.records.foldl classifyStep (false, false, [])).2.1 from rfl, h2]
    simp only [Bool.false_or, List.any_eq_true]
    exact ⟨fun ⟨r, hr, hu⟩ => ⟨r, hr, (usageFlag_false_iff r).1 hu⟩,
      fun ⟨r, hr, hu⟩ => ⟨r, hr, (usageFlag_false_iff r).2 hu⟩⟩

/-- C1, witness for the amended theorem at a concrete input: one
DomainIssued/Raw/Spki record, classified to `⟨[], true, false⟩`. -/
theorem tlsa_flags_from_usage_witness :
    (Tlsa.has_end_entities ⟨[], true, false⟩ = true ↔
      ∃ r ∈ [some (⟨.domainIssued, .raw, .spki, []⟩ : TlsaRData)],
        ∃ d, r = some d ∧ d.cert_usage = CertUsage.domainIssued) ∧
    (Tlsa.has_intermediates ⟨[], true, false⟩ = true ↔
      ∃ r ∈ [some (⟨.domainIssued, .raw, .spki, []⟩ : TlsaRData)],
        ∃ d, r = some d ∧ d.cert_usage = CertUsage.trustAnchor) :=
  tlsa_flags_from_usage (fun _ => none) "example.com."
    ⟨[some ⟨.domainIssued, .raw, .spki, []⟩], 0⟩ ⟨[], true, false⟩ rfl rfl

/-- C2: on a cache miss, a resolution failure whose kind is
`Proto(RrsigsNotPresent)` makes `tlsa_lookup` return `Ok(None)`; every
other resolution failure is returned as `Err`, and an `Err` is distinct
from the empty-success value `Ok(None)`. -/
theorem tlsa_lookup_rrsig_absent_is_empty_success
    (cache : String → Option Tlsa) (key : String) (err : ResolveError)
    (hmiss : cache key = none) :
    ((∃ d, err.kind = .proto ⟨.rrsigsNotPresent d⟩) →
      (tlsa_lookup cache key (.ok ()) (.error err)).result = .ok none) ∧
    ((∀ d, err.kind ≠ .proto ⟨.rrsigsNotPresent d⟩) →
      (tlsa_lookup cache key (.ok ()) (.error err)).result =
        .error (.dnsError err)) ∧
    (Except.error (MailAuthError.dnsError err) ≠
      (Except.ok none : Except MailAuthError (Option Tlsa))) := by
  refine ⟨?_, ?_, by simp⟩
  · rintro ⟨d, hk⟩
    simp [tlsa_lookup, hmiss, hk]
  · intro hne
    rcases err with ⟨k⟩
    cases k with
    | proto p =>
      rcases p with ⟨pk⟩
      cases pk with
      | rrsigsNotPresent d => exact absurd rfl (hne d)
      | otherKind d => simp [tlsa_lookup, hmiss]
    | otherKind d => simp [tlsa_lookup, hmiss]

/-- C2, witness: a signatures-absent failure on a cache miss yields the
empty success. -/
theorem tlsa_lookup_rrsig_absent_witness :
    (tlsa_lookup (fun _ => none) "example.com." (.ok ())
      (.error ⟨.proto ⟨.rrsigsNotPresent "no RRSIG"⟩⟩)).result = .ok none :=
  (tlsa_lookup_rrsig_absent_is_empty_success (fun _ => none) "example.com."
    ⟨.proto ⟨.rrsigsNotPresent "no RRSIG"⟩⟩ rfl).1 ⟨"no RRSIG", rfl⟩

/-- C3: the entry list of a classified answer has one entry per record
whose usage is DomainIssued (`is_end_entity = true`) or TrustAnchor
(`false`), whose matching type is Sha256 (`is_sha256 = true`) or Sha512
(`false`), and whose selector is Spki (`is_spki = true`) or Full
(`false`); any other value on any axis yields no entry.  A successful
answer with exactly one DomainIssued/Sha256/Spki record yields
`has_end_entities = true`, `has_intermediates = false` and exactly one
entry. -/
theorem tlsa_classification_entries :
    (∀ records, (classifyRecords records).entries =
      records.filterMap classifiedEntry_spec) ∧
    (∀ (cache : String → Option Tlsa) (key : String) (d : List Nat)
        (vu : Nat), cache key = none →
      (tlsa_lookup cache key (.ok ())
          (.ok ⟨[some ⟨.domainIssued, .sha256, .spki, d⟩], vu⟩)).result =
        .ok (some ⟨[⟨true, true, true, d⟩], true, false⟩)) := by
  constructor
  · intro records
    rw [show (classifyRecords records).entries =
      (records.foldl classifyStep (false, false, [])).2.2 from rfl,
      foldl_classifyStep_entries]
    simp
  · intro cache key d vu hmiss
    simp [tlsa_lookup, hmiss, classifyRecords, classifyStep, usageClass,
      matchingClass, selectorClass]

/-- C3, witness: a one-record DomainIssued/Sha256/Spki answer on a cache
miss. -/
theorem tlsa_classification_entries_witness :
    (tlsa_lookup (fun _ => none) "example.com." (.ok ())
        (.ok ⟨[some ⟨.domainIssued, .sha256, .spki, [1, 2, 3]⟩], 7⟩)).result =
      .ok (some ⟨[⟨true, true, true, [1, 2, 3]⟩], true, false⟩) :=
  tlsa_classification_entries.2 (fun _ => none) "example.com." [1, 2, 3] 7 rfl

/-- C6: `tlsa_lookup` is cache-first — on a cache hit it returns the
cached value with no DNS query and no cache write, whatever the resolver
would have answered; on a cache miss with a successful answer it inserts
the classified `Tlsa` under the lookup key with the answer's
`valid_until` instant as expiry, and returns it. -/
theorem tlsa_lookup_cache_first (cache : String → Option Tlsa)
    (key : String) :
    (∀ v, cache key = some v → ∀ nameParse dns,
      tlsa_lookup cache key nameParse dns = ⟨.ok (some v), false, none⟩) ∧
    (∀ answer, cache key = none →
      tlsa_lookup cache key (.ok ()) (.ok answer) =
        ⟨.ok (some (classifyRecords answer.records)), true,
          some (key, classifyRecords answer.records, answer.valid_until)⟩) := by
  constructor
  · intro v hv nameParse dns
    simp [tlsa_lookup, hv]
  · intro answer hmiss
    simp [tlsa_lookup, hmiss]

/-- C6, witness: a hit on a one-entry cache is returned as-is even when
the resolver would fail, with no DNS query and no insertion. -/
theorem tlsa_lookup_cache_first_witness :
    tlsa_lookup
        (fun k => if k = "hit.example." then some ⟨[], false, false⟩ else none)
        "hit.example." (.ok ()) (.error ⟨.otherKind "unreachable"⟩) =
      ⟨.ok (some ⟨[], false, false⟩), false, none⟩ :=
  (tlsa_lookup_cache_first
    (fun k => if k = "hit.example." then some ⟨[], false, false⟩ else none)
    "hit.example.").1 ⟨[], false, false⟩ (by simp) (.ok ())
    (.error ⟨.otherKind "unreachable"⟩)

/-! ## Claim theorems: throttle key and hasher -/

/-- C4: two `ThrottleKey`s are equal (under the manual `PartialEq` and
as values) iff their full 32-byte digests are byte-for-byte equal; the
`Hash` impl feeds exactly the 32 raw digest bytes to the hasher; and
equality is independent of collisions in the 8-byte fast-path hash —
there exist two keys with identical fast-path hash that are unequal. -/
theorem throttle_key_eq_iff_digest_eq :
    (∀ a b : ThrottleKey, ThrottleKey.beq a b = true ↔ a.hash = b.hash) ∧
    (∀ a b : ThrottleKey, ThrottleKey.beq a b = true ↔ a = b) ∧
    (∀ a : ThrottleKey, a.hashFeed = a.hash ∧ a.hashFeed.length = 32) ∧
    (∃ a b : ThrottleKey,
      (ThrottleKeyHasher.default.write a.hashFeed).finish =
        (ThrottleKeyHasher.default.write b.hashFeed).finish ∧
      ThrottleKey.beq a b = false) := by
  have hbeq : ∀ a b : ThrottleKey,
      ThrottleKey.beq a b = true ↔ a.hash = b.hash := by
    intro a b
    simp [ThrottleKey.beq]
  refine ⟨hbeq, ?_, ?_, ?_⟩
  · intro a b
    rw [hbeq]
    constructor
    · intro h
      cases a; cases b
      simp only at h
      subst h
      rfl
    · intro h; rw [h]
  · intro a
    exact ⟨rfl, a.hash_len⟩
  · refine ⟨⟨List.replicate 32 0, by decide⟩,
      ⟨List.replicate 31 0 ++ [1], by decide⟩, by decide, by decide⟩

/-- C5: for a digest of length at least 8, writing it to a fresh
`ThrottleKeyHasher` and calling `finish` yields exactly the native-endian
64-bit value of its first 8 bytes; the result depends on nothing beyond
those first 8 bytes. -/
theorem throttle_hasher_first8 (d : List Nat) (h : 8 ≤ d.length) :
    (ThrottleKeyHasher.default.write d).finish =
      u64_from_ne_bytes (d.take 8) ∧
    (∀ d' : List Nat, 8 ≤ d'.length → d'.take 8 = d.take 8 →
      (ThrottleKeyHasher.default.write d').finish =
        (ThrottleKeyHasher.default.write d).finish) := by
  constructor
  · simp [ThrottleKeyHasher.write, ThrottleKeyHasher.finish, h]
  · intro d' h' hpre
    simp [ThrottleKeyHasher.write, ThrottleKeyHasher.finish, h, h', hpre]

/-- C5, witness: a 10-byte digest hashes to its first 8 bytes. -/
theorem throttle_hasher_first8_witness :
    (ThrottleKeyHasher.default.write
        [1, 2, 3, 4, 5, 6, 7, 8, 9, 10]).finish =
      u64_from_ne_bytes ([1, 2, 3, 4, 5, 6, 7, 8, 9, 10].take 8) :=
  (throttle_hasher_first8 [1, 2, 3, 4, 5, 6, 7, 8, 9, 10] (by decide)).1

/-- C9: the hasher is total on short input — writing fewer than 8 bytes
(from any prior state) succeeds and makes `finish` return 0; the release
build has no guard beyond the compiled-out `debug_assert!`. -/
theorem throttle_hasher_short_input (d : List Nat) (h : d.length < 8) :
    (ThrottleKeyHasher.default.write d).finish = 0 ∧
    (∀ prev : ThrottleKeyHasher, (prev.write d).finish = 0) := by
  have hw : ∀ prev : ThrottleKeyHasher, (prev.write d).finish = 0 := by
    intro prev
    simp [ThrottleKeyHasher.write, ThrottleKeyHasher.finish,
      Nat.not_le.mpr h]
  exact ⟨hw ThrottleKeyHasher.default, hw⟩

/-- C9, witness: a 3-byte write yields 0. -/
theorem throttle_hasher_short_input_witness :
    (ThrottleKeyHasher.default.write [1, 2, 3]).finish = 0 :=
  (throttle_hasher_short_input [1, 2, 3] (by decide)).1

/-! ## Claim theorems: limiter map sizing -/

/-- C8: with no `limiter.shard` configured, the shard count is the
smallest power of two at or above twice the available CPU count, and the
capacity is the configured `limiter.capacity`, 100 when absent. -/
theorem limiter_default_shard_amount (config : LimiterConfig)
    (num_cpus : Nat) (hshard : config.shard = none) :
    (∃ k, (Data.parse_limiter config num_cpus).shard_amount = 2 ^ k) ∧
    num_cpus * 2 ≤ (Data.parse_limiter config num_cpus).shard_amount ∧
    (∀ m, (∃ k, m = 2 ^ k) → num_cpus * 2 ≤ m →
      (Data.parse_limiter config num_cpus).shard_amount ≤ m) ∧
    (Data.parse_limiter config num_cpus).capacity =
      config.capacity.getD 100 ∧
    (config.capacity = none →
      (Data.parse_limiter config num_cpus).capacity = 100) := by
  have hsa : (Data.parse_limiter config num_cpus).shard_amount =
      2 ^ Nat.clog 2 (num_cpus * 2) := by
    simp [Data.parse_limiter, hshard, next_power_of_two]
  refine ⟨⟨Nat.clog 2 (num_cpus * 2), hsa⟩, ?_, ?_, rfl, ?_⟩
  · rw [hsa]
    exact Nat.le_pow_clog (by norm_num) _
  · rintro m ⟨k, hk⟩ hm
    rw [hsa, hk]
    exact Nat.pow_le_pow_right (by norm_num)
      ((Nat.le_pow_iff_clog_le (by norm_num)).1 (hk ▸ hm))
  · intro hcap
    simp [Data.parse_limiter, hcap]

/-- C8, witness: with nothing configured and 3 CPUs, the shard amount is
the smallest power of two at or above 6 and the capacity is 100. -/
theorem limiter_default_shard_amount_witness :
    (∃ k, (Data.parse_limiter ⟨none, none⟩ 3).shard_amount = 2 ^ k) ∧
    3 * 2 ≤ (Data.parse_limiter ⟨none, none⟩ 3).shard_amount ∧
    (∀ m, (∃ k, m = 2 ^ k) → 3 * 2 ≤ m →
      (Data.parse_limiter ⟨none, none⟩ 3).shard_amount ≤ m) ∧
    (Data.parse_limiter ⟨none, none⟩ 3).capacity =
      Option.getD none 100 ∧
    ((none : Option Nat) = none →
      (Data.parse_limiter ⟨none, none⟩ 3).capacity = 100) :=
  limiter_default_shard_amount ⟨none, none⟩ 3 rfl

/-! ## Claim theorems: session data model -/

/-- C7: `SessionAddress` equality and hashing depend only on the
lower-cased address (so two addresses differing only in letter case
yield equal, identically-hashing values), the order compares the domain
first and the lower-cased address on equal domains, and on addresses
built by `SessionAddress::new` the order's `Equal` coincides with
equality. -/
theorem session_address_identity_and_order :
    (∀ a b : SessionAddress,
      SessionAddress.beq a b = true ↔ a.address_lcase = b.address_lcase) ∧
    (∀ a b : SessionAddress, SessionAddress.beq a b = true →
      a.hashFeed = b.hashFeed) ∧
    (∀ s t : String, to_lowercase s = to_lowercase t →
      SessionAddress.beq (.new s) (.new t) = true ∧
      (SessionAddress.new s).hashFeed = (SessionAddress.new t).hashFeed) ∧
    (∀ a b : SessionAddress, a.domain = b.domain →
      SessionAddress.cmp a b = string_cmp a.address_lcase b.address_lcase) ∧
    (∀ a b : SessionAddress, a.domain ≠ b.domain →
      SessionAddress.cmp a b = string_cmp a.domain b.domain) ∧
    (∀ s t : String,
      SessionAddress.cmp (.new s) (.new t) = .eq ↔
        SessionAddress.beq (.new s) (.new t) = true) := by
  have hbeq : ∀ a b : SessionAddress,
      SessionAddress.beq a b = true ↔ a.address_lcase = b.address_lcase := by
    intro a b
    simp [SessionAddress.beq]
  have hcmp_eq : ∀ a b : String, string_cmp a b = .eq ↔ a = b := by
    intro a b
    unfold string_cmp
    split
    · simp_all
    · split <;> simp_all
  refine ⟨hbeq, ?_, ?_, ?_, ?_, ?_⟩
  · intro a b h
    exact (hbeq a b).1 h
  · intro s t h
    refine ⟨(hbeq _ _).2 ?_, ?_⟩
    · simp [SessionAddress.new, h]
    · simp [SessionAddress.new, SessionAddress.hashFeed, h]
  · intro a b h
    simp [SessionAddress.cmp, (hcmp_eq a.domain b.domain).2 h]
  · intro a b h
    have : string_cmp a.domain b.domain ≠ .eq := fun hc =>
      h ((hcmp_eq _ _).1 hc)
    unfold SessionAddress.cmp
    rcases hd : string_cmp a.domain b.domain <;> simp_all
  · intro s t
    rw [hbeq]
    unfold SessionAddress.cmp
    constructor
    · intro h
      rcases hd : string_cmp (SessionAddress.new s).domain
          (SessionAddress.new t).domain <;> rw [hd] at h
      · exact absurd h (by simp)
      · exact (hcmp_eq _ _).1 h
      · exact absurd h (by simp)
    · intro h
      have hdom : (SessionAddress.new s).domain =
          (SessionAddress.new t).domain := by
        simp only [SessionAddress.new] at h ⊢
        rw [h]
      rw [(hcmp_eq _ _).2 hdom]
      exact (hcmp_eq _ _).2 h

/-- C7, witness: two case-variants of one address are equal and hash
identically under the `new` constructor. -/
theorem session_address_identity_witness :
    SessionAddress.beq (.new "Alice@Example.Com")
      (.new "alice@example.com") = true ∧
    (SessionAddress.new "Alice@Example.Com").hashFeed =
      (SessionAddress.new "alice@example.com").hashFeed :=
  session_address_identity_and_order.2.2.1 "Alice@Example.Com"
    "alice@example.com" (by decide)

/-- C10: a freshly created `SessionData` has an empty envelope and
zeroed counters: no sender, no recipients, empty HELO domain and auth
identity, and zero error counters, message counters, byte budget,
priority, delivery-by and future-release values. -/
theorem session_data_new_empty (local_ip remote_ip : IpAddr) (now : Nat) :
    (SessionData.new local_ip remote_ip now).mail_from = none ∧
    (SessionData.new local_ip remote_ip now).rcpt_to = [] ∧
    (SessionData.new local_ip remote_ip now).helo_domain = "" ∧
    (SessionData.new local_ip remote_ip now).authenticated_as = "" ∧
    (SessionData.new local_ip remote_ip now).rcpt_errors = 0 ∧
    (SessionData.new local_ip remote_ip now).auth_errors = 0 ∧
    (SessionData.new local_ip remote_ip now).messages_sent = 0 ∧
    (SessionData.new local_ip remote_ip now).bytes_left = 0 ∧
    (SessionData.new local_ip remote_ip now).priority = 0 ∧
    (SessionData.new local_ip remote_ip now).delivery_by = 0 ∧
    (SessionData.new local_ip remote_ip now).future_release = 0 := by
  refine ⟨rfl, rfl, rfl, rfl, rfl, rfl, rfl, rfl, rfl, rfl, rfl⟩

end MailServer
